import Mathlib

/-!
Verification model of the quelthalas widget toolkit core.

The definitions below are a shallow embedding of the text-input editing
engine (`src/qt/src/component/input.rs`) and of the popup-menu tracker
(`src/qt/src/component/menu.rs`).

Modelling conventions:
* UTF-16 code units are `Nat`; a `StringBuffer` is represented by its
  null-terminated text content, a `List Nat` of the code units before the
  first null (the operations that reach these models never insert a null
  code unit, so splices on the text agree with splices on the raw vector).
* The text-shaping service (Uniscribe `ScriptString` analysis) and the
  DirectWrite measurement used by the menu are external collaborators; they
  enter as function parameters (`measure`).  The viewport width
  `fw = format_rect.right - format_rect.left` is likewise a parameter.
* Host-visual side effects (caret movement, `scroll_caret`'s `x_offset`
  walk, repaint requests, window-region setup) do not touch the buffer,
  the selection or the undo record and are not part of the state; the
  invalidation *requests* that `set_selection` forwards are returned
  explicitly so that "zero invalidation calls" is a provable statement.
* A Rust `usize` underflow panic is modelled as `Option.none`.
-/

namespace Quelthalas

/-! ### Input field: state (`Context` in `input.rs`) -/

inductive InputType
  | number
  | text
  | password
  deriving DecidableEq

/-- The editing-relevant fields of `Context` in `input.rs`:
`buffer`, `selection_start`, `selection_end`, `undo_position`,
`undo_insert_count`, `undo_buffer`, `text_width`, `char_width`, and the
field's declared input class (`State.input_type`). -/
structure EditState where
  buffer : List Nat
  selection_start : Nat
  selection_end : Nat
  undo_position : Nat
  undo_insert_count : Nat
  undo_buffer : List Nat
  text_width : Int
  char_width : Int
  input_type : InputType
  deriving DecidableEq

/-! ### set_selection (`input.rs` lines 344-391) -/

/-- The `order_usize!` macro: swap so that the first component is the
smaller one. -/
def orderPair (x y : Nat) : Nat × Nat := if y < x then (y, x) else (x, y)

/-- The `invalidate_text` calls performed on a selection change, after the
four `order_usize!` sorts; `invalidate_text` returns without forwarding
anything when its two offsets coincide, hence the final filter.  Each
returned pair produces at most one rectangle for the host. -/
def invalidation_ranges (newStart0 newEnd0 oldStart0 oldEnd0 : Nat) :
    List (Nat × Nat) :=
  let p1 := orderPair newEnd0 oldEnd0
  let newEnd := p1.1
  let oldEnd := p1.2
  let p2 := orderPair newStart0 oldStart0
  let newStart := p2.1
  let oldStart := p2.2
  let p3 := orderPair oldStart oldEnd
  let oldStart := p3.1
  let oldEnd := p3.2
  let p4 := orderPair newStart newEnd
  let newStart := p4.1
  let newEnd := p4.2
  let calls :=
    if newEnd ≠ oldStart then
      if oldStart > newEnd then [(newStart, newEnd), (oldStart, oldEnd)]
      else [(newStart, oldStart), (newEnd, oldEnd)]
    else [(newStart, oldEnd)]
  calls.filter (fun p => p.1 ≠ p.2)

/-- `set_selection`: returns `(changed, new state, forwarded invalidation
ranges)`.  `none` for `start` keeps the caret (`selection_end`) as both
endpoints; with `start = some _`, `none` for `end` means "to end of
text"; both stored endpoints are clamped with `length.min`. -/
def clamped_new_start (st : EditState) (start : Option Nat) : Nat :=
  match start with
  | none => st.selection_end
  | some s => min st.buffer.length s

def clamped_new_end (st : EditState) (start : Option Nat) (end_ : Option Nat) : Nat :=
  match start with
  | none => st.selection_end
  | some _ =>
    match end_ with
    | none => st.buffer.length
    | some e => min st.buffer.length e

def set_selection (st : EditState) (start : Option Nat) (end_ : Option Nat) :
    Bool × EditState × List (Nat × Nat) :=
  let old_start := st.selection_start
  let old_end := st.selection_end
  let new_start := clamped_new_start st start
  let new_end := clamped_new_end st start end_
  if old_start = new_start ∧ old_end = new_end then (false, st, [])
  else
    let st' := { st with selection_start := new_start, selection_end := new_end }
    (true, st', invalidation_ranges new_start new_end old_start old_end)

/-! ### replace_selection (`input.rs` lines 393-521) -/

/-- The `honor_limit` truncation loop (`input.rs` lines 443-449).  The
source guard `start + replace_length >= start` is vacuous for `usize`;
each iteration removes the code unit at `start + replace_length - 1` and
decrements `replace_length`, and the loop body never writes `text_width`,
so once entered the loop decrements `replace_length` past zero: the
decrement underflows (a panic), modelled as `none`. -/
def trimLoop (fw text_width : Int) (start : Nat) :
    Nat → List Nat → Option (List Nat)
  | replace_length, buffer =>
    if text_width > fw then
      match replace_length with
      | 0 => none
      | rl + 1 =>
        trimLoop fw text_width start rl
          (buffer.take (start + rl) ++ buffer.drop (start + rl + 1))
    else some buffer

/-- Undo bookkeeping for the deleted span (`input.rs` lines 453-491).
`buf` is the copy of the deleted span taken before the splice.  In the
first coalescing branch the source copies `end - start` code units from
the start of the *current* buffer (`context.buffer.as_ptr()`), not from
`buf`. -/
def undoBookkeepDelete (can_undo : Bool) (start end_ : Nat) (buf : List Nat)
    (st : EditState) : EditState :=
  if end_ ≠ start then
    if can_undo then
      let st' :=
        if st.undo_insert_count = 0 ∧ st.undo_buffer ≠ [] ∧
            start = st.undo_position then
          { st with undo_buffer := st.undo_buffer ++ st.buffer.take (end_ - start) }
        else if st.undo_insert_count = 0 ∧ st.undo_buffer ≠ [] ∧
            end_ = st.undo_position then
          { st with undo_buffer := buf ++ st.undo_buffer, undo_position := start }
        else
          { st with undo_buffer := buf, undo_position := start }
      { st' with undo_insert_count := 0 }
    else
      { st with undo_insert_count := 0, undo_buffer := [] }
  else st

/-- Undo bookkeeping for the inserted span (`input.rs` lines 492-507).
In the non-coalescing branch the source stores into `undo_insert_count`
twice in a row (`= start`, then `= replace.len()`); the first store is
dead and `undo_position` is left unchanged.  Both stores are mirrored. -/
def undoBookkeepInsert (can_undo : Bool) (start : Nat) (replace : List Nat)
    (st : EditState) : EditState :=
  if replace ≠ [] then
    if can_undo then
      if start = st.undo_position ∨
          (st.undo_insert_count ≠ 0 ∧
            start = st.undo_position + st.undo_insert_count) then
        { st with undo_insert_count := st.undo_insert_count + replace.length }
      else
        let st' := { st with undo_insert_count := start }
        { st' with undo_insert_count := replace.length, undo_buffer := [] }
    else
      { st with undo_insert_count := 0, undo_buffer := [] }
  else st

/-- `replace_selection(can_undo, replace, honor_limit)`.  `fw` is the
viewport width `format_rect.right - format_rect.left` and `measure` is the
shaping service's rendered-width query (`ScriptString_pSize`).  Note that
`calculate_line_width` (`input.rs` lines 708-719) stores the measured
width into `char_width`; `text_width` is never recomputed. -/
def replace_selection (fw : Int) (measure : List Nat → Int) (can_undo : Bool)
    (replace : List Nat) (honor_limit : Bool) (st : EditState) :
    Option EditState :=
  let start0 := st.selection_start
  let end0 := st.selection_end
  let replace_length := replace.length
  if start0 = end0 ∧ replace_length = 0 then some st
  else
    let start := min start0 end0
    let end_ := max start0 end0
    let text_length := st.buffer.length
    let size := text_length - (end_ - start) + replace_length
    let st := { st with text_width := if size = 0 then 0 else st.text_width }
    let buf := if end_ ≠ start then (st.buffer.drop start).take (end_ - start) else []
    let st :=
      { st with buffer :=
          if end_ ≠ start then st.buffer.take start ++ st.buffer.drop end_
          else st.buffer }
    let st :=
      { st with buffer :=
          if replace_length ≠ 0 then st.buffer.take start ++ replace ++ st.buffer.drop start
          else st.buffer }
    let st :=
      { st with char_width := if st.buffer.length = 0 then 0 else measure st.buffer }
    let trimmed :=
      if honor_limit ∧ st.text_width > fw then
        (trimLoop fw st.text_width start replace_length st.buffer).map
          (fun b => { st with buffer := b })
      else some st
    trimmed.map (fun st =>
      let st := undoBookkeepDelete can_undo start end_ buf st
      let st := undoBookkeepInsert can_undo start replace st
      let caret := start + replace.length
      (set_selection st (some caret) (some caret)).2.1)

/-! ### Event handlers (`input.rs`) -/

/-- `clear` (`input.rs` lines 821-823). -/
def clear (fw : Int) (measure : List Nat → Int) (st : EditState) :
    Option EditState :=
  replace_selection fw measure true [] true st

/-- `move_backward` (`input.rs` lines 853-862); `scroll_caret` only moves
the horizontal scroll offset and is outside this state. -/
def move_backward (extend : Bool) (st : EditState) : EditState :=
  let e0 := st.selection_end
  let e := if e0 > 0 then e0 - 1 else e0
  let start := if extend then st.selection_start else e
  (set_selection st (some start) (some e)).2.1

/-- Messages the character handler posts back to its own window. -/
inductive EditMsg
  | copyMsg
  | pasteMsg
  | cutMsg
  | undoMsg
  deriving DecidableEq

/-- `on_char` (`input.rs` lines 1013-1062).  `control` is the host's
Ctrl-key state.  Clipboard/undo commands are returned as posted messages;
the `Type::Number` arm of the default branch is empty in the source, and
the printable guard is `char >= 0x20 && char != 127`. -/
def on_char (fw : Int) (measure : List Nat → Int) (control : Bool) (c : Nat)
    (st : EditState) : Option (EditState × List EditMsg) :=
  if c = 8 then
    if ¬control then
      if st.selection_start ≠ st.selection_end then
        (clear fw measure st).map (fun s => (s, []))
      else
        let st := (set_selection st none none).2.1
        let st := move_backward true st
        (clear fw measure st).map (fun s => (s, []))
    else some (st, [])
  else if c = 0x03 then
    if st.input_type = .password then some (st, []) else some (st, [.copyMsg])
  else if c = 0x16 then some (st, [.pasteMsg])
  else if c = 0x18 then
    if st.input_type = .password then some (st, []) else some (st, [.cutMsg])
  else if c = 0x1A then some (st, [.undoMsg])
  else
    if st.input_type = .number then some (st, [])
    else if 32 ≤ c ∧ c ≠ 127 then
      (replace_selection fw measure true [c] true st).map (fun s => (s, []))
    else some (st, [])

/-- `on_undo` (`input.rs` lines 1121-1141). -/
def on_undo (fw : Int) (measure : List Nat → Int) (st : EditState) :
    Option EditState :=
  let text := st.undo_buffer
  let st := (set_selection st (some st.undo_position)
    (some (st.undo_position + st.undo_insert_count))).2.1
  let st := { st with undo_buffer := [] }
  match replace_selection fw measure true text true st with
  | none => none
  | some st =>
    some (set_selection st (some st.undo_position)
      (some (st.undo_position + st.undo_insert_count))).2.1

/-! ### Menu tree (`menu.rs`) -/

structure MRect where
  left : Int
  top : Int
  right : Int
  bottom : Int
  deriving DecidableEq

inductive MItemKind
  | leaf (id : Nat) (disabled : Bool)
  | subMenu
  | divider
  deriving DecidableEq

/-- A `MenuItem` of `menu.rs`; `text` is a key into the host's
text-measurement service, `rect` the laid-out item rectangle.  A
`SubMenu` item's child tree only matters to popup creation, which is a
host effect, so it is not carried here. -/
structure MItem where
  kind : MItemKind
  text : Nat
  rect : MRect
  deriving DecidableEq

instance : Inhabited MItem := ⟨{ kind := .divider, text := 0, rect := ⟨0, 0, 0, 0⟩ }⟩

/-- The `Menu` node state of `menu.rs`. -/
structure Menu where
  items : List MItem
  window : Option Nat
  focused_item_index : Option Nat
  menu_list_rect : MRect
  is_scrolling : Bool
  scroll_position : Int
  deriving DecidableEq

def MItem.isDivider (it : MItem) : Bool :=
  match it.kind with
  | .divider => true
  | _ => false

/-! ### Keyboard focus movement (`menu.rs` lines 411-471) -/

/-- `select_item` (`menu.rs` lines 411-421): no-op when the index is
already focused, otherwise store it (and ask the host to redraw). -/
def select_item (menu : Menu) (index : Option Nat) : Menu :=
  if menu.focused_item_index = index then menu
  else { menu with focused_item_index := index }

/-- The upward scan of `select_next`/`select_first`: walk the given
suffix (whose first element has index `j`), skipping dividers. -/
def scanUp : List MItem → Nat → Option Nat
  | [], _ => none
  | it :: rest, j => if it.isDivider then scanUp rest (j + 1) else some j

/-- The downward scan of `select_previous`/`select_last`: walk indices
`j - 1, j - 2, …, 0`, skipping dividers. -/
def scanDown (items : List MItem) : Nat → Option Nat
  | 0 => none
  | j + 1 =>
    match items.get? j with
    | none => none
    | some it => if it.isDivider then scanDown items j else some j

/-- `select_previous` (`menu.rs` lines 423-434): with no focused item the
whole body is skipped. -/
def select_previous (menu : Menu) : Menu :=
  match menu.focused_item_index with
  | none => menu
  | some i =>
    match scanDown menu.items i with
    | none => menu
    | some j => select_item menu (some j)

/-- `select_next` (`menu.rs` lines 436-447): with no focused item the
whole body is skipped; the loop visits indices `i + 1` to `len - 1`. -/
def select_next (menu : Menu) : Menu :=
  match menu.focused_item_index with
  | none => menu
  | some i =>
    match scanUp (menu.items.drop (i + 1)) (i + 1) with
    | none => menu
    | some j => select_item menu (some j)

/-- `select_first` (`menu.rs` lines 449-459). -/
def select_first (menu : Menu) : Menu :=
  match scanUp menu.items 0 with
  | none => menu
  | some j => select_item menu (some j)

/-- `select_last` (`menu.rs` lines 461-471). -/
def select_last (menu : Menu) : Menu :=
  match scanDown menu.items menu.items.length with
  | none => menu
  | some j => select_item menu (some j)

/-! ### Mouse-up execution (`menu.rs` lines 356-377 and 604-635) -/

inductive ExecutionResult
  | executed
  | noExecuted
  | shownPopup
  deriving DecidableEq

/-- The pointer hit-test outcome of `find_item_by_coordinates`
(`menu.rs` lines 269-326); the hit-test itself queries host window
geometry (`GetWindowRect`, `PtInRect`) so its outcome is an input here. -/
inductive HitTest
  | nowhere
  | border
  | item (index : Nat)
  | scrollUp
  | scrollDown
  deriving DecidableEq

/-- `execute_focused_item` (`menu.rs` lines 604-635), together with the
`WM_COMMAND` id posted to the owning window, if any.  For a focused
submenu item the source opens the submenu's popup and reports
`ShownPopup`; the popup-window effect is a host effect. -/
def execute_focused_item (menu : Menu) : ExecutionResult × Option Nat :=
  match menu.focused_item_index with
  | some i =>
    match (menu.items.getD i default).kind with
    | .leaf id disabled =>
      if disabled then (.noExecuted, none) else (.executed, some id)
    | .subMenu => (.shownPopup, none)
    | .divider => (.noExecuted, none)
  | none => (.noExecuted, none)

/-- `menu_button_up` (`menu.rs` lines 356-377): execute only when the hit
item is the focused one and is not a submenu; a `ShownPopup` outcome is
downgraded to `NoExecuted`. -/
def menu_button_up (menu : Menu) (hit : HitTest) : ExecutionResult × Option Nat :=
  match hit with
  | .item item_index =>
    if menu.focused_item_index = some item_index then
      match (menu.items.getD item_index default).kind with
      | .subMenu => (.noExecuted, none)
      | _ =>
        let r := execute_focused_item menu
        if r.1 = .noExecuted ∨ r.1 = .shownPopup then (.noExecuted, r.2) else r
    else (.noExecuted, none)
  | _ => (.noExecuted, none)

/-- Whether the tracking session ends after a mouse-up: `track_menu`
(`menu.rs` lines 714-725) sets `exit_menu` exactly when the result is not
`NoExecuted`. -/
def button_up_exits (menu : Menu) (hit : HitTest) : Bool :=
  (menu_button_up menu hit).1 ≠ .noExecuted

/-! ### Popup layout and placement (`menu.rs` lines 534-536, 817-992) -/

def MENU_MARGIN : Int := 4
def MENU_BORDER_WIDTH : Int := 1
def MENU_LIST_GAP : Int := 2

/-- `calc_menu_item_size` (`menu.rs` lines 817-851).  `measure` is the
DirectWrite text-metrics query, returning the ceiled width and height of
an item's text; `nudge` and `strokeThin` are the theme constants
`spacing_vertical_s_nudge` and `stroke_width_thin`. -/
def calc_menu_item_size (measure : Nat → Int × Int) (nudge strokeThin : Int)
    (org_x org_y : Int) (it : MItem) : MItem :=
  match it.kind with
  | .divider => { it with rect := ⟨org_x, org_y, org_x, org_y + 4 + strokeThin⟩ }
  | .leaf _ _ =>
    let m := measure it.text
    { it with rect :=
        ⟨org_x, org_y, org_x + m.1 + 2 * nudge, org_y + max (m.2 + 2 * nudge) 32⟩ }
  | .subMenu =>
    let m := measure it.text
    let r : MRect :=
      ⟨org_x, org_y, org_x + m.1 + 2 * nudge, org_y + max (m.2 + 2 * nudge) 32⟩
    { it with rect := { r with right := r.right + 4 + 20 } }

/-- The inner item loop of `calc_popup_menu_size` (`menu.rs` lines
876-894): lay every item out at column `org_x`, threading the running
`org_y` and the running maximum of the desired widths; returns the
re-sized items, the final right edge and the final `org_y`. -/
def calcItemsLoop (measure : Nat → Int × Int) (nudge strokeThin : Int)
    (org_x : Int) : List MItem → Int → Int → List MItem × Int × Int
  | [], org_y, right => ([], right, org_y)
  | it :: rest, org_y, right =>
    let it := calc_menu_item_size measure nudge strokeThin org_x org_y it
    let right := max right it.rect.right
    let org_y := it.rect.bottom + MENU_LIST_GAP
    let r := calcItemsLoop measure nudge strokeThin org_x rest org_y right
    (it :: r.1, r.2.1, r.2.2)

/-- `calc_popup_menu_size` (`menu.rs` lines 867-924): single-column
layout (the outer loop runs exactly one pass), minimum width 138, offset
by border plus margin, and a switch to scrolling mode when the height
reaches `max_height`.  Returns the updated menu and `(width, height)`. -/
def calc_popup_menu_size (measure : Nat → Int × Int) (nudge strokeThin : Int)
    (max_height : Int) (menu : Menu) : Menu × Int × Int :=
  let menu :=
    if menu.items.isEmpty then { menu with menu_list_rect := ⟨0, 0, 0, 0⟩ }
    else
      let r := calcItemsLoop measure nudge strokeThin 0 menu.items 0 0
      let org_y := r.2.2 - MENU_LIST_GAP
      let right := max r.2.1 138
      let items := r.1.map (fun it => { it with rect := { it.rect with right := right } })
      { menu with items := items, menu_list_rect := ⟨0, 0, right, max 0 org_y⟩ }
  let off := MENU_BORDER_WIDTH + MENU_MARGIN
  let mlr := menu.menu_list_rect
  let mlr : MRect := ⟨mlr.left + off, mlr.top + off, mlr.right + off, mlr.bottom + off⟩
  let height := mlr.bottom + MENU_BORDER_WIDTH + MENU_MARGIN
  let width := mlr.right + MENU_BORDER_WIDTH + MENU_MARGIN
  if height ≥ max_height then
    ({ menu with
        menu_list_rect := { mlr with top := MENU_MARGIN, bottom := max_height - MENU_MARGIN },
        is_scrolling := true }, width, max_height)
  else ({ menu with menu_list_rect := mlr }, width, height)

/-- The x-axis placement of `show_popup` (`menu.rs` lines 945-956): an
attempted flip to the opposite side of the anchor, guarded by
`x_anchor != 0 && x >= width - x_anchor`, then a clamp to the work area's
right edge (only if still overflowing) and left edge. -/
def popup_x (workLeft workRight : Int) (width : Int) (x x_anchor : Int) : Int :=
  let x :=
    if x + width > workRight then
      let x := if x_anchor ≠ 0 ∧ x ≥ width - x_anchor then x - width - x_anchor else x
      if x + width > workRight then workRight - width else x
    else x
  if x < workLeft then workLeft else x

/-- The y-axis placement of `show_popup` (`menu.rs` lines 957-968): flip
guarded by `y_anchor != 0 && y >= height + y_anchor`, then clamp to the
work area's bottom and top edges. -/
def popup_y (workTop workBottom : Int) (height : Int) (y y_anchor : Int) : Int :=
  let y :=
    if y + height > workBottom then
      let y := if y_anchor ≠ 0 ∧ y ≥ height + y_anchor then y - (height + y_anchor) else y
      if y + height > workBottom then workBottom - height else y
    else y
  if y < workTop then workTop else y

/-- The monitor work-area rectangle (`MONITORINFO.rcWork`). -/
structure WorkArea where
  left : Int
  top : Int
  right : Int
  bottom : Int
  deriving DecidableEq

/-- `show_popup` (`menu.rs` lines 926-992): reset the focused item, lay
the menu out against the monitor's work-area height, then place the popup
with the per-axis flip-then-clamp computation.  Returns the updated menu
state and `(x, y, width, height)` handed to `SetWindowPos` (device
scaling aside). -/
def show_popup (measure : Nat → Int × Int) (nudge strokeThin : Int)
    (work : WorkArea) (menu : Menu) (x y x_anchor y_anchor : Int) :
    Menu × Int × Int × Int × Int :=
  let menu := { menu with focused_item_index := none }
  let max_height := work.bottom - work.top
  let r := calc_popup_menu_size measure nudge strokeThin max_height menu
  let menu := r.1
  let width := r.2.1
  let height := r.2.2
  let x := popup_x work.left work.right width x x_anchor
  let y := popup_y work.top work.bottom height y y_anchor
  (menu, x, y, width, height)

/-- Modelled from the claim's words (C8), for comparison with `popup_x`:
"if the popup at the preferred position would overflow the work area on
that axis and an anchor offset is given, it is flipped to the opposite
side of the anchor; it is then clamped into the work area". -/
def claim_flip_then_clamp_x (workLeft workRight : Int) (width : Int)
    (x x_anchor : Int) : Int :=
  let x := if x + width > workRight ∧ x_anchor ≠ 0 then x - width - x_anchor else x
  let x := if x + width > workRight then workRight - width else x
  if x < workLeft then workLeft else x

/-! ### Concrete states used by the theorems -/

/-- A shaping service in which every code unit renders one unit wide. -/
def measureOne : List Nat → Int := fun l => (l.length : Int)

/-- Buffer "Hello" with the collapsed selection (2,2) and a clean undo
record. -/
def helloState : EditState :=
  { buffer := [72, 101, 108, 108, 111], selection_start := 2, selection_end := 2,
    undo_position := 0, undo_insert_count := 0, undo_buffer := [],
    text_width := 0, char_width := 0, input_type := .text }

/-- Buffer "ab" with the caret at the end, in a viewport of width 2 the
content already fills. -/
def stAB : EditState :=
  { buffer := [97, 98], selection_start := 2, selection_end := 2,
    undo_position := 0, undo_insert_count := 0, undo_buffer := [],
    text_width := 0, char_width := 0, input_type := .text }

/-- A numeric field holding "1" with the caret at the end. -/
def numState : EditState :=
  { buffer := [49], selection_start := 1, selection_end := 1,
    undo_position := 0, undo_insert_count := 0, undo_buffer := [],
    text_width := 0, char_width := 0, input_type := .number }

/-- A plain text field holding "A" with the caret at the end. -/
def textState : EditState :=
  { buffer := [65], selection_start := 1, selection_end := 1,
    undo_position := 0, undo_insert_count := 0, undo_buffer := [],
    text_width := 0, char_width := 0, input_type := .text }

/-- The item list of spec Scenario 3:
`[Leaf, Leaf(disabled), Divider, SubMenu]`. -/
def scenarioItems : List MItem :=
  [ { kind := .leaf 1 false, text := 0, rect := ⟨0, 0, 0, 0⟩ },
    { kind := .leaf 2 true, text := 1, rect := ⟨0, 0, 0, 0⟩ },
    { kind := .divider, text := 2, rect := ⟨0, 0, 0, 0⟩ },
    { kind := .subMenu, text := 3, rect := ⟨0, 0, 0, 0⟩ } ]

/-- The scenario menu with a chosen focused index. -/
def scenarioMenu (i : Option Nat) : Menu :=
  { items := scenarioItems, window := some 1, focused_item_index := i,
    menu_list_rect := ⟨0, 0, 0, 0⟩, is_scrolling := false, scroll_position := 0 }

/-- A menu whose only item is a disabled leaf with command id 7, focused. -/
def disabledLeafMenu : Menu :=
  { items := [{ kind := .leaf 7 true, text := 0, rect := ⟨0, 0, 0, 0⟩ }],
    window := some 1, focused_item_index := some 0,
    menu_list_rect := ⟨0, 0, 0, 0⟩, is_scrolling := false, scroll_position := 0 }

/-- A menu whose only item is an enabled leaf with command id 7, focused. -/
def enabledLeafMenu : Menu :=
  { items := [{ kind := .leaf 7 false, text := 0, rect := ⟨0, 0, 0, 0⟩ }],
    window := some 1, focused_item_index := some 0,
    menu_list_rect := ⟨0, 0, 0, 0⟩, is_scrolling := false, scroll_position := 0 }

/-! ## Supporting lemmas -/

theorem set_selection_buffer_eq (st : EditState) (s e : Option Nat) :
    (set_selection st s e).2.1.buffer = st.buffer := by
  simp only [set_selection]
  split <;> rfl

theorem set_selection_some_some_inv (st : EditState) (a b : Nat) :
    (set_selection st (some a) (some b)).2.1.selection_start ≤
      (set_selection st (some a) (some b)).2.1.buffer.length ∧
    (set_selection st (some a) (some b)).2.1.selection_end ≤
      (set_selection st (some a) (some b)).2.1.buffer.length := by
  simp only [set_selection]
  split
  next h => exact ⟨h.1 ▸ min_le_left _ _, h.2 ▸ min_le_left _ _⟩
  next h => exact ⟨min_le_left _ _, min_le_left _ _⟩

theorem ite_and_false_left {P : Prop} [Decidable P] {α : Type} (a b : α) :
    (if (false = true) ∧ P then a else b) = b :=
  if_neg (fun hc => Bool.false_ne_true hc.1)

theorem ite_and_true_left {P : Prop} [Decidable P] {α : Type} (a b : α)
    (hp : ¬P) : (if (true = true) ∧ P then a else b) = b :=
  if_neg (fun hc => hp hc.2)

theorem select_item_items (menu : Menu) (x : Option Nat) :
    (select_item menu x).items = menu.items := by
  simp only [select_item]
  split <;> rfl

theorem select_item_focus (menu : Menu) (x : Option Nat) :
    (select_item menu x).focused_item_index = x := by
  simp only [select_item]
  split
  next h => exact h
  next => rfl

theorem select_next_eq (menu : Menu) (i : Nat)
    (hfoc : menu.focused_item_index = some i) :
    select_next menu =
      (match scanUp (menu.items.drop (i + 1)) (i + 1) with
        | none => menu
        | some j => select_item menu (some j)) := by
  simp only [select_next, hfoc]

theorem select_previous_eq (menu : Menu) (i : Nat)
    (hfoc : menu.focused_item_index = some i) :
    select_previous menu =
      (match scanDown menu.items i with
        | none => menu
        | some j => select_item menu (some j)) := by
  simp only [select_previous, hfoc]

theorem scanUp_of_first (l : List MItem) : ∀ (j m : Nat), m < l.length →
    (l.getD m default).isDivider = false →
    (∀ i, i < m → (l.getD i default).isDivider = true) →
    scanUp l j = some (j + m) := by
  induction l with
  | nil =>
    intro j m hm _ _
    simp at hm
  | cons it rest ih =>
    intro j m hm hnd hall
    rw [scanUp]
    by_cases hd : it.isDivider = true
    · rw [if_pos hd]
      cases m with
      | zero =>
        rw [List.getD_cons_zero] at hnd
        rw [hnd] at hd
        cases hd
      | succ m' =>
        have hstep := ih (j + 1) m' (by simp only [List.length_cons] at hm; omega)
          (by rw [List.getD_cons_succ] at hnd; exact hnd)
          (fun i hi => by
            have := hall (i + 1) (by omega)
            rw [List.getD_cons_succ] at this
            exact this)
        rw [hstep]
        simp only [Option.some.injEq]
        omega
    · rw [if_neg hd]
      cases m with
      | zero => simp
      | succ m' =>
        exfalso
        have := hall 0 (by omega)
        rw [List.getD_cons_zero] at this
        exact hd this

theorem scanUp_none_of_all (l : List MItem) : ∀ j : Nat,
    (∀ m, m < l.length → (l.getD m default).isDivider = true) →
    scanUp l j = none := by
  induction l with
  | nil => intro j _; rfl
  | cons it rest ih =>
    intro j hall
    rw [scanUp]
    have hd : it.isDivider = true := by
      have := hall 0 (by simp)
      rwa [List.getD_cons_zero] at this
    rw [if_pos hd]
    exact ih (j + 1) (fun m hm => by
      have := hall (m + 1) (by simp only [List.length_cons]; omega)
      rwa [List.getD_cons_succ] at this)

theorem scanDown_of_first (items : List MItem) : ∀ (i k : Nat), k < i →
    i ≤ items.length →
    (items.getD k default).isDivider = false →
    (∀ m, k < m → m < i → (items.getD m default).isDivider = true) →
    scanDown items i = some k := by
  intro i
  induction i with
  | zero =>
    intro k hik _ _ _
    omega
  | succ j ih =>
    intro k hik hlen hnd hall
    rw [scanDown]
    have hj : j < items.length := by omega
    cases hg : items.get? j with
    | none =>
      exfalso
      have := List.get?_eq_none.mp hg
      omega
    | some it =>
      show (if it.isDivider = true then scanDown items j else some j) = some k
      have hgetD : items.getD j default = it := by
        rw [List.getD_eq_getD_get?, hg]
        rfl
      by_cases hkj : k = j
      · subst hkj
        rw [hgetD] at hnd
        rw [if_neg (by rw [hnd]; exact Bool.false_ne_true)]
      · have hdj : it.isDivider = true := by
          rw [← hgetD]
          exact hall j (by omega) (by omega)
        rw [if_pos hdj]
        exact ih k (by omega) (by omega) hnd
          (fun m hm1 hm2 => hall m hm1 (by omega))

theorem scanDown_none_of_all (items : List MItem) : ∀ i : Nat,
    (∀ m, m < i → (items.getD m default).isDivider = true) →
    scanDown items i = none := by
  intro i
  induction i with
  | zero => intro _; rfl
  | succ j ih =>
    intro hall
    rw [scanDown]
    cases hg : items.get? j with
    | none => rfl
    | some it =>
      show (if it.isDivider = true then scanDown items j else some j) = none
      have hdj : it.isDivider = true := by
        have hgetD : items.getD j default = it := by
          rw [List.getD_eq_getD_get?, hg]
          rfl
        rw [← hgetD]
        exact hall j (by omega)
      rw [if_pos hdj]
      exact ih (fun m hm => hall m (by omega))

/-! ## Claim theorems -/

/-- C1.  The claim's round-trip fails on the code: from buffer "Hello"
with selection (2,2), `replace_selection(true, "X", true)` does yield
"HeXllo" with selection (3,3), but `on_undo` then yields "eXllo" with
selection (0,0), not "Hello" with (2,2): the insertion bookkeeping stores
`start` into `undo_insert_count` (a dead store) instead of
`undo_position`, so the undo record still points at position 0. -/
theorem undo_roundtrip_fails_on_code :
    ((replace_selection 100 measureOne true [88] true helloState).map
        (fun s => (s.buffer, s.selection_start, s.selection_end)) =
      some ([72, 101, 88, 108, 108, 111], 3, 3)) ∧
    (((replace_selection 100 measureOne true [88] true helloState).bind
        (on_undo 100 measureOne)).map
        (fun s => (s.buffer, s.selection_start, s.selection_end)) =
      some ([101, 88, 108, 108, 111], 0, 0)) ∧
    [101, 88, 108, 108, 111] ≠ helloState.buffer := by
  decide

/-- C6.  `replace_selection` with an empty replacement while the
selection is empty short-circuits: the state (buffer, selection, undo
record) is returned unchanged and the call succeeds. -/
theorem replace_selection_empty_replacement_noop
    (fw : Int) (measure : List Nat → Int) (can_undo honor_limit : Bool)
    (st : EditState) (h : st.selection_start = st.selection_end) :
    replace_selection fw measure can_undo [] honor_limit st = some st := by
  simp only [replace_selection, List.length_nil]
  rw [if_pos ⟨h, trivial⟩]

/-- Witness for C6 at buffer "Hello", selection (2,2). -/
theorem replace_selection_empty_replacement_noop_witness :
    helloState.selection_start = helloState.selection_end ∧
    replace_selection 100 measureOne true [] true helloState = some helloState :=
  ⟨rfl, replace_selection_empty_replacement_noop 100 measureOne true true helloState rfl⟩

/-- C5.  If the clamped new endpoints passed to `set_selection` equal the
currently stored pair, the call reports `changed = false`, leaves the
state untouched and forwards zero invalidation ranges to the host. -/
theorem set_selection_unchanged_noop (st : EditState) (s e : Option Nat)
    (h1 : clamped_new_start st s = st.selection_start)
    (h2 : clamped_new_end st s e = st.selection_end) :
    set_selection st s e = (false, st, []) := by
  simp only [set_selection]
  rw [if_pos ⟨h1.symm, h2.symm⟩]

/-- Witness for C5: re-selecting (2,2) on buffer "Hello". -/
theorem set_selection_unchanged_noop_witness :
    set_selection helloState (some 2) (some 2) = (false, helloState, []) :=
  set_selection_unchanged_noop helloState (some 2) (some 2) (by decide) (by decide)

/-- C2.  The truncation never happens: `calculate_line_width` stores the
measured width into `char_width`, `text_width` is only ever written 0, so
the loop guard `text_width > fw` is never satisfied and `honor_limit`
changes nothing; concretely, typing "cd" into "ab" with a full viewport
of width 2 leaves "abcd" whose measured width 4 still exceeds 2. -/
theorem honor_limit_never_trims :
    (∀ (fw : Int) (measure : List Nat → Int) (can_undo : Bool)
        (replace : List Nat) (st : EditState),
      st.text_width ≤ fw → 0 ≤ fw →
      replace_selection fw measure can_undo replace true st =
        replace_selection fw measure can_undo replace false st) ∧
    ((replace_selection 2 measureOne true [99, 100] true stAB).map
        (fun s => s.buffer) = some [97, 98, 99, 100]) ∧
    measureOne [97, 98, 99, 100] > 2 := by
  refine ⟨?_, by decide, by decide⟩
  intro fw measure cu rep st h hfw
  have hcond : ¬ ((if st.buffer.length -
      (max st.selection_start st.selection_end -
        min st.selection_start st.selection_end) + rep.length = 0 then (0 : Int)
      else st.text_width) > fw) := by
    split
    · omega
    · omega
  simp only [replace_selection, true_and, if_neg hcond]
  split
  · rfl
  · rw [ite_and_false_left]

/-- Witness for C2: the hypotheses of the general part hold at the
concrete "ab"-plus-"cd" input, where the untrimmed result is visible. -/
theorem honor_limit_never_trims_witness :
    stAB.text_width ≤ 2 ∧ (0 : Int) ≤ 2 ∧
    replace_selection 2 measureOne true [99, 100] true stAB =
      replace_selection 2 measureOne true [99, 100] false stAB :=
  ⟨by decide, by decide,
    honor_limit_never_trims.1 2 measureOne true [99, 100] stAB (by decide) (by decide)⟩

/-- C4.  `set_selection` clamps requested endpoints with
`min textLength` and preserves the selection-in-range invariant, and any
successful `replace_selection` re-establishes it (its final
`set_selection` clamps the caret), so no reachable state has a selection
endpoint past the end of the buffer. -/
theorem selection_clamped_invariant (st : EditState) (s e : Option Nat)
    (h1 : st.selection_start ≤ st.buffer.length)
    (h2 : st.selection_end ≤ st.buffer.length) :
    ((set_selection st s e).2.1.selection_start ≤
        (set_selection st s e).2.1.buffer.length ∧
      (set_selection st s e).2.1.selection_end ≤
        (set_selection st s e).2.1.buffer.length) ∧
    (∀ a b : Nat, (set_selection st (some a) (some b)).1 = true →
      (set_selection st (some a) (some b)).2.1.selection_start =
          min st.buffer.length a ∧
        (set_selection st (some a) (some b)).2.1.selection_end =
          min st.buffer.length b) ∧
    (∀ (fw : Int) (measure : List Nat → Int) (can_undo : Bool)
        (replace : List Nat) (honor_limit : Bool) (st' : EditState),
      replace_selection fw measure can_undo replace honor_limit st = some st' →
      st'.selection_start ≤ st'.buffer.length ∧
        st'.selection_end ≤ st'.buffer.length) := by
  refine ⟨?_, ?_, ?_⟩
  · simp only [set_selection]
    split
    · exact ⟨h1, h2⟩
    · refine ⟨?_, ?_⟩
      · cases s with
        | none => exact h2
        | some v => exact min_le_left _ _
      · cases s with
        | none => exact h2
        | some v =>
          cases e with
          | none => exact le_refl _
          | some w => exact min_le_left _ _
  · intro a b
    simp only [set_selection]
    split
    · intro hfalse
      exact absurd hfalse (by simp)
    · intro _
      exact ⟨rfl, rfl⟩
  · intro fw measure cu rep hl st' hrep
    simp only [replace_selection] at hrep
    split at hrep
    · injection hrep with h'
      subst h'
      exact ⟨h1, h2⟩
    · rw [Option.map_eq_some'] at hrep
      obtain ⟨stX, _, hf⟩ := hrep
      rw [← hf]
      exact set_selection_some_some_inv _ _ _

/-- Witness for C4: requesting the out-of-range pair (9,1) on "Hello". -/
theorem selection_clamped_invariant_witness :
    (set_selection helloState (some 9) (some 1)).2.1.selection_start ≤
      (set_selection helloState (some 9) (some 1)).2.1.buffer.length ∧
    (set_selection helloState (some 9) (some 1)).2.1.selection_end ≤
      (set_selection helloState (some 9) (some 1)).2.1.buffer.length :=
  (selection_clamped_invariant helloState (some 9) (some 1) (by decide) (by decide)).1

/-- C3 counterexample.  In a numeric field holding "1", typing the digit
'5' inserts nothing: the `Type::Number` arm of `on_char`'s default branch
is empty, so digits are rejected along with every other character. -/
theorem number_field_rejects_digit_counterexample :
    (on_char 100 measureOne false 53 numState).map (fun p => p.1.buffer) =
      some [49] ∧
    [49] ≠ [49, 53] := by
  decide

/-- C3 amended.  Character dispatch by input class: a numeric field
rejects every printable character, digits included (the handler returns
the state unchanged and posts nothing); every other class inserts every
printable character (code unit at least 0x20 and distinct from 0x7F) at
the selection via `replace_selection(true, [c], true)`. -/
theorem on_char_input_dispatch (fw : Int) (measure : List Nat → Int)
    (control : Bool) (c : Nat) (st : EditState) :
    (st.input_type = .number → 32 ≤ c →
      on_char fw measure control c st = some (st, [])) ∧
    (st.input_type ≠ .number → 32 ≤ c → c ≠ 127 →
      on_char fw measure control c st =
        (replace_selection fw measure true [c] true st).map (fun s => (s, []))) := by
  constructor
  · intro hn hc
    simp only [on_char]
    rw [if_neg (show ¬c = 8 by omega), if_neg (show ¬c = 3 by omega),
      if_neg (show ¬c = 22 by omega), if_neg (show ¬c = 24 by omega),
      if_neg (show ¬c = 26 by omega), if_pos hn]
  · intro hn hc h127
    simp only [on_char]
    rw [if_neg (show ¬c = 8 by omega), if_neg (show ¬c = 3 by omega),
      if_neg (show ¬c = 22 by omega), if_neg (show ¬c = 24 by omega),
      if_neg (show ¬c = 26 by omega), if_neg hn, if_pos ⟨hc, h127⟩]

/-- C7.  With focus on index `i`, Down (`select_next`) moves focus to the
first following index holding a non-divider item and Up
(`select_previous`) to the nearest preceding one; only dividers are
skipped, so disabled leaves remain focusable; when no non-divider item
exists in the chosen direction the menu is left unchanged (no wrap); the
item list itself is never modified. -/
theorem select_next_previous_skip_dividers_no_wrap (menu : Menu) (i : Nat)
    (hfoc : menu.focused_item_index = some i) (hlen : i < menu.items.length) :
    ((select_next menu).items = menu.items ∧
      (select_previous menu).items = menu.items) ∧
    ((∀ j, i < j → j < menu.items.length →
        (menu.items.getD j default).isDivider = true) →
      select_next menu = menu) ∧
    (∀ j, i < j → j < menu.items.length →
      (menu.items.getD j default).isDivider = false →
      (∀ k, i < k → k < j → (menu.items.getD k default).isDivider = true) →
      (select_next menu).focused_item_index = some j) ∧
    ((∀ j, j < i → (menu.items.getD j default).isDivider = true) →
      select_previous menu = menu) ∧
    (∀ j, j < i → (menu.items.getD j default).isDivider = false →
      (∀ k, j < k → k < i → (menu.items.getD k default).isDivider = true) →
      (select_previous menu).focused_item_index = some j) := by
  have hconv : ∀ m, (menu.items.drop (i + 1)).getD m default =
      menu.items.getD (i + 1 + m) default := by
    intro m
    rw [List.getD_eq_getD_get?, List.getD_eq_getD_get?, List.get?_drop]
  have hdlen : (menu.items.drop (i + 1)).length = menu.items.length - (i + 1) :=
    List.length_drop _ _
  refine ⟨⟨?_, ?_⟩, ?_, ?_, ?_, ?_⟩
  · cases hscan : scanUp (menu.items.drop (i + 1)) (i + 1) with
    | none => rw [select_next_eq menu i hfoc, hscan]
    | some j =>
      rw [select_next_eq menu i hfoc, hscan]
      exact select_item_items menu (some j)
  · cases hscan : scanDown menu.items i with
    | none => rw [select_previous_eq menu i hfoc, hscan]
    | some j =>
      rw [select_previous_eq menu i hfoc, hscan]
      exact select_item_items menu (some j)
  · intro hall
    have hnone : scanUp (menu.items.drop (i + 1)) (i + 1) = none := by
      apply scanUp_none_of_all
      intro m hm
      rw [hconv m]
      exact hall (i + 1 + m) (by omega) (by rw [hdlen] at hm; omega)
    rw [select_next_eq menu i hfoc, hnone]
  · intro j hij hjlen hjnd hbetween
    have hsome : scanUp (menu.items.drop (i + 1)) (i + 1) =
        some ((i + 1) + (j - (i + 1))) := by
      apply scanUp_of_first
      · rw [hdlen]; omega
      · rw [hconv]
        have hj : i + 1 + (j - (i + 1)) = j := by omega
        rw [hj]
        exact hjnd
      · intro m hm
        rw [hconv]
        exact hbetween (i + 1 + m) (by omega) (by omega)
    rw [select_next_eq menu i hfoc, hsome]
    have hj : (i + 1) + (j - (i + 1)) = j := by omega
    rw [hj]
    exact select_item_focus menu (some j)
  · intro hall
    have hnone : scanDown menu.items i = none :=
      scanDown_none_of_all menu.items i (fun m hm => hall m hm)
    rw [select_previous_eq menu i hfoc, hnone]
  · intro j hji hjnd hbetween
    have hsome : scanDown menu.items i = some j :=
      scanDown_of_first menu.items i j hji (by omega) hjnd hbetween
    rw [select_previous_eq menu i hfoc, hsome]
    exact select_item_focus menu (some j)

/-- Witness for C7: the spec-Scenario-3 menu
`[Leaf, Leaf(disabled), Divider, SubMenu]`: Down from 0 lands on the
disabled leaf at 1, Down again skips the divider landing on the submenu
at 3; Up from 3 returns to 1; movement never wraps at either end. -/
theorem select_next_previous_skip_dividers_no_wrap_witness :
    (select_next (scenarioMenu (some 0))).focused_item_index = some 1 ∧
    (select_next (scenarioMenu (some 1))).focused_item_index = some 3 ∧
    (select_previous (scenarioMenu (some 3))).focused_item_index = some 1 ∧
    select_previous (scenarioMenu (some 0)) = scenarioMenu (some 0) ∧
    select_next (scenarioMenu (some 3)) = scenarioMenu (some 3) := by
  refine ⟨?_, ?_, ?_, ?_, ?_⟩
  · exact (select_next_previous_skip_dividers_no_wrap (scenarioMenu (some 0)) 0
      rfl (by decide)).2.2.1 1 (by decide) (by decide) (by decide)
      (fun k h1 h2 => absurd h1 (by omega))
  · exact (select_next_previous_skip_dividers_no_wrap (scenarioMenu (some 1)) 1
      rfl (by decide)).2.2.1 3 (by decide) (by decide) (by decide)
      (fun k h1 h2 => by
        have hk : k = 2 := by omega
        subst hk
        decide)
  · exact (select_next_previous_skip_dividers_no_wrap (scenarioMenu (some 3)) 3
      rfl (by decide)).2.2.2.2 1 (by decide) (by decide)
      (fun k h1 h2 => by
        have hk : k = 2 := by omega
        subst hk
        decide)
  · exact (select_next_previous_skip_dividers_no_wrap (scenarioMenu (some 0)) 0
      rfl (by decide)).2.2.2.1 (fun j hj => absurd hj (by omega))
  · exact (select_next_previous_skip_dividers_no_wrap (scenarioMenu (some 3)) 3
      rfl (by decide)).2.1 (fun j h1 h2 => by
        exfalso
        have hL : (scenarioMenu (some 3)).items.length = 4 := rfl
        omega)

/-- C8 counterexample.  With work area [0,100], popup width 90, preferred
x 20 and anchor offset 5: the popup overflows the right edge and an
anchor is given, yet the code does not flip (the guard
`x >= width - x_anchor` fails) and clamps to x = 10, while the claim's
flip-then-clamp yields x = 0. -/
theorem popup_flip_guard_counterexample :
    popup_x 0 100 90 20 5 = 10 ∧
    claim_flip_then_clamp_x 0 100 90 20 5 = 0 ∧
    (10 : Int) ≠ 0 := by
  decide

/-- C8 amended.  Per-axis placement: with no overflow the coordinate is
only clamped to the near edge; on overflow the flip happens exactly when
the anchor offset is nonzero AND `x ≥ width - x_anchor` (for y:
`y ≥ height + y_anchor`), after which the result is the flipped value
clamped into the work area; otherwise the coordinate is clamped to
`edge - extent`, then to the near edge — each axis computed
independently of the other. -/
theorem popup_placement_characterization :
    (∀ wl wr w x xa : Int,
      (x + w ≤ wr → popup_x wl wr w x xa = max wl x) ∧
      (x + w > wr → xa ≠ 0 → x ≥ w - xa →
        popup_x wl wr w x xa = max wl (min (x - w - xa) (wr - w))) ∧
      (x + w > wr → (xa = 0 ∨ x < w - xa) →
        popup_x wl wr w x xa = max wl (wr - w))) ∧
    (∀ wt wb h y ya : Int,
      (y + h ≤ wb → popup_y wt wb h y ya = max wt y) ∧
      (y + h > wb → ya ≠ 0 → y ≥ h + ya →
        popup_y wt wb h y ya = max wt (min (y - (h + ya)) (wb - h))) ∧
      (y + h > wb → (ya = 0 ∨ y < h + ya) →
        popup_y wt wb h y ya = max wt (wb - h))) := by
  constructor
  · intro wl wr w x xa
    refine ⟨?_, ?_, ?_⟩
    · intro h1
      simp only [popup_x]
      split_ifs <;> omega
    · intro h1 h2 h3
      have hguard : xa ≠ 0 ∧ x ≥ w - xa := ⟨h2, h3⟩
      simp only [popup_x]
      rw [if_pos h1, if_pos hguard]
      split_ifs <;> omega
    · intro h1 h2
      have hguard : ¬(xa ≠ 0 ∧ x ≥ w - xa) := fun hc =>
        h2.elim (fun h0 => hc.1 h0) (fun hlt => absurd hc.2 (not_le.mpr hlt))
      simp only [popup_x]
      rw [if_pos h1, if_neg hguard]
      split_ifs <;> omega
  · intro wt wb h y ya
    refine ⟨?_, ?_, ?_⟩
    · intro h1
      simp only [popup_y]
      split_ifs <;> omega
    · intro h1 h2 h3
      have hguard : ya ≠ 0 ∧ y ≥ h + ya := ⟨h2, h3⟩
      simp only [popup_y]
      rw [if_pos h1, if_pos hguard]
      split_ifs <;> omega
    · intro h1 h2
      have hguard : ¬(ya ≠ 0 ∧ y ≥ h + ya) := fun hc =>
        h2.elim (fun h0 => hc.1 h0) (fun hlt => absurd hc.2 (not_le.mpr hlt))
      simp only [popup_y]
      rw [if_pos h1, if_neg hguard]
      split_ifs <;> omega

/-- Witness for C8: the spec Scenario-4 case — no anchor, width 90
overflowing the right edge of [0,100] by 20 from x = 30 gives
x = right - width = 10; and a width 150 popup clamps on to the left
edge 0. -/
theorem popup_placement_characterization_witness :
    ((30 : Int) + 90 > 100) ∧
    popup_x 0 100 90 30 0 = max 0 (100 - 90) ∧
    popup_x 0 100 150 30 0 = max 0 (100 - 150) :=
  ⟨by decide,
    (popup_placement_characterization.1 0 100 90 30 0).2.2 (by decide) (Or.inl rfl),
    (popup_placement_characterization.1 0 100 150 30 0).2.2 (by decide) (Or.inl rfl)⟩

/-- C9 counterexample.  A focused *disabled* leaf under the pointer is a
leaf, yet mouse-up posts no command and the session continues
(`execute_focused_item` checks the disabled flag). -/
theorem disabled_leaf_not_executed_counterexample :
    menu_button_up disabledLeafMenu (.item 0) = (.noExecuted, none) ∧
    button_up_exits disabledLeafMenu (.item 0) = false := by
  decide

/-- C9 amended.  On mouse-up over the focused item: an *enabled* leaf is
executed (its command id is posted) and the session ends; a disabled
leaf is not executed and the session continues; a submenu item does not
execute and the session continues; with the hit item not focused,
nothing is executed. -/
theorem menu_button_up_semantics (menu : Menu) (i : Nat) :
    (menu.focused_item_index = some i →
      (∀ id, (menu.items.getD i default).kind = .leaf id false →
        menu_button_up menu (.item i) = (.executed, some id) ∧
        button_up_exits menu (.item i) = true) ∧
      (∀ id, (menu.items.getD i default).kind = .leaf id true →
        menu_button_up menu (.item i) = (.noExecuted, none) ∧
        button_up_exits menu (.item i) = false) ∧
      ((menu.items.getD i default).kind = .subMenu →
        menu_button_up menu (.item i) = (.noExecuted, none) ∧
        button_up_exits menu (.item i) = false)) ∧
    (menu.focused_item_index ≠ some i →
      menu_button_up menu (.item i) = (.noExecuted, none)) := by
  constructor
  · intro hfoc
    refine ⟨?_, ?_, ?_⟩
    · intro id hk
      simp only [List.getD_eq_getD_get?, List.get?_eq_getElem?] at hk
      constructor
      · simp [menu_button_up, execute_focused_item, hfoc, hk]
      · simp [button_up_exits, menu_button_up, execute_focused_item, hfoc, hk]
    · intro id hk
      simp only [List.getD_eq_getD_get?, List.get?_eq_getElem?] at hk
      constructor
      · simp [menu_button_up, execute_focused_item, hfoc, hk]
      · simp [button_up_exits, menu_button_up, execute_focused_item, hfoc, hk]
    · intro hk
      simp only [List.getD_eq_getD_get?, List.get?_eq_getElem?] at hk
      constructor
      · simp [menu_button_up, execute_focused_item, hfoc, hk]
      · simp [button_up_exits, menu_button_up, execute_focused_item, hfoc, hk]
  · intro hfoc
    simp [menu_button_up, hfoc]

/-- Witness for C9: a focused enabled leaf with id 7 executes and ends
the session. -/
theorem menu_button_up_semantics_witness :
    menu_button_up enabledLeafMenu (.item 0) = (.executed, some 7) ∧
    button_up_exits enabledLeafMenu (.item 0) = true :=
  ((menu_button_up_semantics enabledLeafMenu 0).1 rfl).1 7 rfl

/-- C10.  `show_popup` stores `None` into the focused item index before
anything else, and `calc_popup_menu_size` never touches it, so a freshly
shown popup has no focus; and from the no-focus state `select_next` and
`select_previous` (Down/Up) are identities. -/
theorem show_popup_resets_focus :
    (∀ (measure : Nat → Int × Int) (nudge strokeThin : Int) (work : WorkArea)
        (menu : Menu) (x y xa ya : Int),
      (show_popup measure nudge strokeThin work menu x y xa ya).1.focused_item_index =
        none) ∧
    (∀ menu : Menu, menu.focused_item_index = none →
      select_next menu = menu ∧ select_previous menu = menu) := by
  constructor
  · intro measure nudge strokeThin work menu x y xa ya
    have hcalc : ∀ (mh : Int) (m : Menu),
        (calc_popup_menu_size measure nudge strokeThin mh m).1.focused_item_index =
          m.focused_item_index := by
      intro mh m
      simp only [calc_popup_menu_size]
      split <;> split <;> rfl
    simp only [show_popup]
    rw [hcalc]
  · intro menu h
    constructor
    · simp [select_next, h]
    · simp [select_previous, h]

/-- Witness for C10: showing the Scenario-3 menu (previously focused on
index 2) clears focus, and Down on the unfocused menu does nothing. -/
theorem show_popup_resets_focus_witness :
    (show_popup (fun _ => (10, 10)) 6 1 ⟨0, 0, 200, 200⟩
        (scenarioMenu (some 2)) 5 5 0 0).1.focused_item_index = none ∧
    select_next (scenarioMenu none) = scenarioMenu none :=
  ⟨show_popup_resets_focus.1 (fun _ => (10, 10)) 6 1 ⟨0, 0, 200, 200⟩
      (scenarioMenu (some 2)) 5 5 0 0,
    (show_popup_resets_focus.2 (scenarioMenu none) rfl).1⟩

/-- Witness for C3: typing 'b' into a text field holding "A" inserts. -/
theorem on_char_input_dispatch_witness :
    textState.input_type ≠ InputType.number ∧
    on_char 100 measureOne false 98 textState =
      (replace_selection 100 measureOne true [98] true textState).map
        (fun s => (s, [])) ∧
    (on_char 100 measureOne false 98 textState).map (fun p => p.1.buffer) =
      some [65, 98] :=
  ⟨by decide,
    (on_char_input_dispatch 100 measureOne false 98 textState).2 (by decide)
      (by decide) (by decide),
    by decide⟩

end Quelthalas
